import Mathlib

/-!
Shallow embedding of the markdown network-graph generator of this repository
(`src/plugins/docusaurus-plugin-network-graph/networkGraphGenerator.ts`) and of
the local-neighborhood filter
(`src/components/NetworkGraphEmbed/NetworkGraphEmbed.tsx`).

String manipulation is modelled structurally over `List Char`, mirroring the
JavaScript string and `path` primitives the source uses, so that every
definition evaluates by kernel reduction. Edge strengths (the floats 0.8, 0.6
and 0.5 in the source) are modelled as the rationals `mkRat 8 10`,
`mkRat 6 10`, `mkRat 5 10`.
-/

namespace NetworkGraphDemo

/-- Helper for `splitChar`: accumulates the current segment (reversed). -/
def splitCharAux (sep : Char) : List Char → List Char → List (List Char)
  | [], acc => [acc.reverse]
  | c :: rest, acc =>
    if c = sep then acc.reverse :: splitCharAux sep rest []
    else splitCharAux sep rest (c :: acc)

/-- JavaScript `s.split(sep)` for a one-character separator. -/
def splitChar (sep : Char) (s : String) : List String :=
  (splitCharAux sep s.toList []).map String.mk

/-- JavaScript `s.startsWith(pre)`. -/
def strStartsWith (s pre : String) : Bool :=
  pre.toList.isPrefixOf s.toList

/-- JavaScript `s.endsWith(suf)`. -/
def strEndsWith (s suf : String) : Bool :=
  suf.toList.reverse.isPrefixOf s.toList.reverse

/-- Drop the first `n` characters of a string. -/
def strDrop (s : String) (n : Nat) : String :=
  String.mk (s.toList.drop n)

/-- Drop the last `n` characters of a string. -/
def strDropRight (s : String) (n : Nat) : String :=
  String.mk (s.toList.take (s.toList.length - n))

/-- Join a list of strings with a separator (JavaScript `parts.join(sep)`). -/
def joinSep (sep : String) : List String → String
  | [] => ""
  | [s] => s
  | s :: rest => s ++ sep ++ joinSep sep rest

/-- Helper for `jsIncludes`: does `sub` occur somewhere in the list? -/
def containsSubAux (sub : List Char) : List Char → Bool
  | [] => sub.isEmpty
  | c :: rest => sub.isPrefixOf (c :: rest) || containsSubAux sub rest

/-- JavaScript `s.includes(sub)`. -/
def jsIncludes (s sub : String) : Bool :=
  containsSubAux sub.toList s.toList

/-- One content node of the graph (`NetworkNode` in `types.ts`); the optional
front-matter metadata record is flattened into the structure. -/
structure NetworkNode where
  id : String
  title : String
  path : String
  type : String
  tags : List String := []
  category : Option String := none
  description : Option String := none
  date : Option String := none
  author : Option String := none
  deriving DecidableEq

/-- One edge of the graph (`NetworkLink` in `types.ts`). -/
structure NetworkLink where
  source : String
  target : String
  type : String
  strength : ℚ
  deriving DecidableEq

/-- Graph metadata (`NetworkGraphData.metadata` in `types.ts`). -/
structure GraphMetadata where
  generatedAt : String
  totalNodes : Nat
  totalLinks : Nat
  deriving DecidableEq

/-- The full generated graph (`NetworkGraphData` in `types.ts`). -/
structure NetworkGraphData where
  nodes : List NetworkNode
  links : List NetworkLink
  metadata : GraphMetadata
  deriving DecidableEq

/-- The front-matter fields `createNodeFromFile` reads from the parsed
`gray-matter` data object. -/
structure Frontmatter where
  title : Option String := none
  sidebar_label : Option String := none
  tags : Option (List String) := none
  category : Option String := none
  description : Option String := none
  date : Option String := none
  author : Option String := none
  deriving DecidableEq

/-- JavaScript truthiness of an optional string field: `undefined` and the
empty string are falsy (this is the semantics of `a || b` on such fields). -/
def jsTruthy : Option String → Option String
  | none => none
  | some s => if s = "" then none else some s

/-- ASCII whitespace, modelling the regex class `\s` on body text. -/
def isWs (c : Char) : Bool :=
  c = ' ' || c = '\t' || c = '\r'

/-- Attempt of the regex `^#\s+(.+)$` on one line (the `m` flag makes the
source regex scan line by line). `\s+` is greedy but backtracks so that the
group `(.+)` keeps at least one character. -/
def h1OfLine (l : String) : Option String :=
  match l.toList with
  | '#' :: rest =>
    let ws := rest.takeWhile isWs
    let tail := rest.dropWhile isWs
    if ws.isEmpty then none
    else if tail.isEmpty then
      if 2 ≤ ws.length then some (String.mk [ws.getLastD ' ']) else none
    else some (String.mk tail)
  | _ => none

/-- First match of `content.match(/^#\s+(.+)$/m)`; lines are split on a
newline and a trailing carriage return is treated as a line terminator. -/
def firstH1 (content : String) : Option String :=
  (splitChar '\n' content).findSome? fun l =>
    h1OfLine (if strEndsWith l "\r" then strDropRight l 1 else l)

/-- Model of Node `path.extname` applied to a base name (the last path
segment): the suffix from the last dot, unless that dot is the first
character or there is no dot. -/
def extnameChars (cs : List Char) : List Char :=
  let revAfter := cs.reverse.takeWhile (fun c => c ≠ '.')
  if revAfter.length = cs.length then []
  else if revAfter.length + 1 = cs.length then []
  else '.' :: revAfter.reverse

/-- Model of `path.basename(p, path.extname(p))`: the last path segment with
its extension removed. -/
def baseNoExt (p : String) : String :=
  let base := (splitChar '/' p).getLastD ""
  let cs := base.toList
  let ext := extnameChars cs
  if ext ≠ [] ∧ ext.length < cs.length ∧ cs.drop (cs.length - ext.length) = ext then
    String.mk (cs.take (cs.length - ext.length))
  else base

/-- Title resolution of `createNodeFromFile`: front-matter `title`, else
`sidebar_label` (JavaScript `||`, so empty strings are skipped), else the
first level-1 heading of the body, else the file base name without its
extension. -/
def resolveTitle (filePath : String) (fm : Frontmatter) (content : String) : String :=
  match jsTruthy fm.title with
  | some t => t
  | none =>
    match jsTruthy fm.sidebar_label with
    | some s => s
    | none =>
      match firstH1 content with
      | some h => h
      | none => baseNoExt filePath

/-- The `replace(/\.(md|mdx)$/, "")` step of the URL construction. -/
def stripMdExt (s : String) : String :=
  if strEndsWith s ".mdx" then strDropRight s 4
  else if strEndsWith s ".md" then strDropRight s 3
  else s

/-- URL path construction of `createNodeFromFile`: strip the markdown
extension, collapse a trailing `index` segment, drop a file name duplicating
its parent directory name, strip the `src/pages` prefix, then add the
type-specific prefix. -/
def mkUrlPath (filePath : String) (nodeType : String) : String :=
  let u0 := stripMdExt filePath
  let u1 := if strEndsWith u0 "/index" then strDropRight u0 6 else u0
  let parts := splitChar '/' u1
  let u2 :=
    if 2 ≤ parts.length ∧ parts.getLastD "" = parts.dropLast.getLastD "" then
      joinSep "/" parts.dropLast
    else u1
  let u3 := if strStartsWith u2 "src/pages" then strDrop u2 9 else u2
  if nodeType = "doc" then
    "/docs/" ++ (if strStartsWith u3 "docs/" then strDrop u3 5 else u3)
  else if nodeType = "blog" then "/" ++ u3
  else if u3 = "" then "/" else u3

/-- The node builder `createNodeFromFile` (file reading and front-matter
parsing already done: `fm` is the parsed data, `content` the stripped body). -/
def createNodeFromFile (filePath : String) (fm : Frontmatter) (content : String) : NetworkNode :=
  let nodeType :=
    if strStartsWith filePath "docs/" then "doc"
    else if strStartsWith filePath "blog/" then "blog"
    else "page"
  { id := filePath
    title := resolveTitle filePath fm content
    path := mkUrlPath filePath nodeType
    type := nodeType
    tags := fm.tags.getD []
    category := fm.category
    description := fm.description
    date := fm.date
    author := fm.author }

/-- The duplicate-link scan of `generateParentChildLinks`: is there already a
link between `a` and `b`, in either direction (any link type)? -/
def linkExistsBetween (links : List NetworkLink) (a b : String) : Bool :=
  links.any fun l => (l.source == a && l.target == b) || (l.source == b && l.target == a)

/-- The candidate id `directory + "/" + directoryName + ".mdx"` for the
same-directory hub-file heuristic of `generateParentChildLinks`. -/
def sameDirCandidate (id : String) : String :=
  let parts := splitChar '/' id
  joinSep "/" parts.dropLast ++ "/" ++ parts.dropLast.getLastD "" ++ ".mdx"

/-- Case 1 of `generateParentChildLinks` for one node: the links pushed by
the same-directory hub-file heuristic (zero or one). -/
def sameDirNew (nodes : List NetworkNode) (links : List NetworkLink) (node : NetworkNode) :
    List NetworkLink :=
  let potentialParent := sameDirCandidate node.id
  match nodes.find? (fun m => m.id == potentialParent && !(m.id == node.id)) with
  | some p =>
    if linkExistsBetween links p.id node.id then []
    else [{ source := p.id, target := node.id, type := "parent-child", strength := mkRat 8 10 }]
  | none => []

/-- The candidate ids `potentialParents` of case 2 of
`generateParentChildLinks`, in source order. -/
def ancestorCandidates (id : String) : List String :=
  let parts := splitChar '/' id
  let parentDirectory := joinSep "/" parts.dropLast.dropLast
  let parentDirName := parts.dropLast.dropLast.getLastD ""
  [parentDirectory ++ "/" ++ parentDirName ++ ".mdx",
   parentDirectory ++ "/index.mdx",
   parentDirectory ++ "/README.mdx"]

/-- Case 2 of `generateParentChildLinks` for one node: the candidate loop
pushes a link for the first candidate that is a known node (other than the
node itself) and has no existing link with the node, then breaks. -/
def ancestorNew (nodes : List NetworkNode) (links : List NetworkLink) (node : NetworkNode) :
    List NetworkLink :=
  if 2 < (splitChar '/' node.id).length then
    match (ancestorCandidates node.id).findSome? (fun c =>
        match nodes.find? (fun m => m.id == c && !(m.id == node.id)) with
        | some m => if linkExistsBetween links m.id node.id then none else some m
        | none => none) with
    | some m => [{ source := m.id, target := node.id, type := "parent-child", strength := mkRat 6 10 }]
    | none => []
  else []

/-- The body of the `nodes.forEach` of `generateParentChildLinks`: case 1,
then case 2 against the updated link list. -/
def parentChildStep (nodes : List NetworkNode) (links : List NetworkLink) (node : NetworkNode) :
    List NetworkLink :=
  if 1 < (splitChar '/' node.id).length then
    let links1 := links ++ sameDirNew nodes links node
    links1 ++ ancestorNew nodes links1 node
  else links

/-- Structural-edge inference `generateParentChildLinks`; the `maxDepth`
parameter is accepted but never read in the source. -/
def generateParentChildLinks (nodes : List NetworkNode) (links : List NetworkLink)
    (maxDepth : Nat) : List NetworkLink :=
  nodes.foldl (parentChildStep nodes) links

/-- One attempt of the inline-link regex `\[([^\]]+)\]\(([^)]+)\)` at a
position just after an opening bracket: greedy label up to the first closing
bracket, then the delimiter pair, then the greedy target. Returns the link
target and the remaining input. -/
def parseLink (l : List Char) : Option (String × List Char) :=
  match l.takeWhile (fun c => c ≠ ']'), l.dropWhile (fun c => c ≠ ']') with
  | _ :: _, ']' :: '(' :: rest2 =>
    match rest2.takeWhile (fun c => c ≠ ')'), rest2.dropWhile (fun c => c ≠ ')') with
    | t :: ts, ')' :: rest4 => some (String.mk (t :: ts), rest4)
    | _, _ => none
  | _, _ => none

/-- The repeated `linkRegex.exec` loop of `generateReferenceLinks`: all link
targets of the body, left to right, non-overlapping. Recursion is driven by a
fuel counter so that the scanner evaluates by kernel reduction; every
recursive call strictly shortens the input, so the initial fuel (the input
length, supplied by `extractLinkTargets`) is never exhausted. -/
def scanLinksFuel : Nat → List Char → List String
  | 0, _ => []
  | _ + 1, [] => []
  | fuel + 1, c :: rest =>
    if c = '[' then
      match parseLink rest with
      | some (t, rest2) => t :: scanLinksFuel fuel rest2
      | none => scanLinksFuel fuel rest
    else scanLinksFuel fuel rest

/-- All inline-link targets found in a body text. -/
def extractLinkTargets (content : String) : List String :=
  scanLinksFuel content.toList.length content.toList

/-- The `linkPath.split("#")[0].split("?")[0]` step of `resolveLinkPath`. -/
def stripHashQuery (s : String) : String :=
  (splitChar '?' ((splitChar '#' s).headD "")).headD ""

/-- Model of Node `path.dirname` for the relative file paths the generator
works with. -/
def pathDirname (p : String) : String :=
  let segs := splitChar '/' p
  if segs.length ≤ 1 then "."
  else
    let d := joinSep "/" segs.dropLast
    if d = "" then "/" else d

/-- Segment normalization of Node `path.normalize`: drop empty and `.`
segments and resolve `..` against the previous segment. -/
def pathNormSegs (isAbs : Bool) (segs : List String) : List String :=
  (segs.foldl (fun st seg =>
    if seg = "" ∨ seg = "." then st
    else if seg = ".." then
      match st with
      | [] => if isAbs then [] else [".."]
      | t :: rest => if t = ".." then ".." :: t :: rest else rest
    else seg :: st) []).reverse

/-- Model of Node `path.normalize` (posix; trailing-separator preservation is
irrelevant for the generator's inputs and omitted). -/
def pathNormalize (p : String) : String :=
  let isAbs := strStartsWith p "/"
  let body := joinSep "/" (pathNormSegs isAbs (splitChar '/' p))
  if isAbs then (if body = "" then "/" else "/" ++ body)
  else (if body = "" then "." else body)

/-- Model of Node `path.join` of two parts: empty parts are dropped, the rest
joined with a separator and normalized. -/
def pathJoin (a b : String) : String :=
  let parts := [a, b].filter (fun s => s ≠ "")
  if parts.isEmpty then "." else pathNormalize (joinSep "/" parts)

/-- Link-target resolution `resolveLinkPath`: strip fragment and query, then
resolve an absolute target against the site root and a relative target
against the linking file's directory. -/
def resolveLinkPath (currentFilePath linkPath : String) : String :=
  let cleanLinkPath := stripHashQuery linkPath
  if strStartsWith cleanLinkPath "/" then strDrop cleanLinkPath 1
  else pathNormalize (pathJoin (pathDirname currentFilePath) cleanLinkPath)

/-- Lookup in the `fileMap` (a `Map` keyed by node id, modelled as the node
list searched by id). -/
def getById (fileMap : List NetworkNode) (id : String) : Option NetworkNode :=
  fileMap.find? (fun n => n.id == id)

/-- Target matching `findTargetNode`: exact id, the id with each markdown
extension, the id as a directory with an index file, then a fallback match
against node URL paths. -/
def findTargetNode (resolvedPath : String) (fileMap : List NetworkNode) : Option NetworkNode :=
  match getById fileMap resolvedPath with
  | some n => some n
  | none =>
  match getById fileMap (resolvedPath ++ ".md") with
  | some n => some n
  | none =>
  match getById fileMap (resolvedPath ++ ".mdx") with
  | some n => some n
  | none =>
  match getById fileMap (resolvedPath ++ "/index.md") with
  | some n => some n
  | none =>
  match getById fileMap (resolvedPath ++ "/index.mdx") with
  | some n => some n
  | none =>
    fileMap.find? fun node =>
      node.path == "/" ++ resolvedPath ||
      node.path == resolvedPath ||
      strEndsWith node.path resolvedPath

/-- The duplicate scan of `generateReferenceLinks`: an existing reference
link with exactly this directed source and target. -/
def refLinkExists (links : List NetworkLink) (s t : String) : Bool :=
  links.any fun l => l.source == s && l.target == t && l.type == "reference"

/-- The body of the regex-match loop of `generateReferenceLinks` for one link
target: skip external targets, resolve, look up the target node, and push a
directed reference link unless it is a self-link or already present. -/
def refTargetStep (fileMap : List NetworkNode) (node : NetworkNode)
    (links : List NetworkLink) (linkPath : String) : List NetworkLink :=
  if strStartsWith linkPath "http" || strStartsWith linkPath "mailto:" then links
  else
    match findTargetNode (resolveLinkPath node.id linkPath) fileMap with
    | some targetNode =>
      if !(targetNode.id == node.id) then
        if refLinkExists links node.id targetNode.id then links
        else links ++ [{ source := node.id, target := targetNode.id,
                         type := "reference", strength := mkRat 5 10 }]
      else links
    | none => links

/-- The per-node body of `generateReferenceLinks`: re-read the node's file
(`contents` models the file system; `none` models a read failure, which the
source catches and skips) and process every inline-link target. -/
def refNodeStep (fileMap : List NetworkNode) (contents : String → Option String)
    (links : List NetworkLink) (node : NetworkNode) : List NetworkLink :=
  match contents node.id with
  | none => links
  | some body => (extractLinkTargets body).foldl (refTargetStep fileMap node) links

/-- Referential-edge inference `generateReferenceLinks`. -/
def generateReferenceLinks (nodes : List NetworkNode) (links : List NetworkLink)
    (contents : String → Option String) (fileMap : List NetworkNode) : List NetworkLink :=
  nodes.foldl (refNodeStep fileMap contents) links

/-- Graph assembly `generateNetworkGraph`, after discovery: the node list is
the already-built node collection (discovery and file reading are effectful),
`contents` models reading each file's body again for reference scanning, and
`generatedAt` the construction timestamp. -/
def generateNetworkGraph (nodes : List NetworkNode) (contents : String → Option String)
    (generatedAt : String) (maxDepth : Nat) : NetworkGraphData :=
  let links1 := generateParentChildLinks nodes [] maxDepth
  let links2 := generateReferenceLinks nodes links1 contents nodes
  { nodes := nodes
    links := links2
    metadata := { generatedAt := generatedAt, totalNodes := nodes.length,
                  totalLinks := links2.length } }

/-- The `currentPath.replace(/\/$/, "")` step of the current-node match. -/
def stripTrailingSlash (s : String) : String :=
  if strEndsWith s "/" then strDropRight s 1 else s

/-- The current-node lookup of `filterDataForCurrentPage`. -/
def findCurrentNode (nodes : List NetworkNode) (currentPath : String) : Option NetworkNode :=
  nodes.find? fun node =>
    node.path == currentPath ||
    node.path == stripTrailingSlash currentPath ||
    jsIncludes currentPath node.path

/-- The `connectedNodeIds` set of `filterDataForCurrentPage` (a JavaScript
`Set`, modelled as the accumulated id list; only membership is consumed). -/
def connectedIds (links : List NetworkLink) (curId : String) : List String :=
  links.foldl (fun acc l =>
    let acc1 := if l.source == curId then acc ++ [l.target] else acc
    if l.target == curId then acc1 ++ [l.source] else acc1) [curId]

/-- The local-neighborhood filter `filterDataForCurrentPage` of
`NetworkGraphEmbed.tsx`. -/
def filterDataForCurrentPage (currentPath : String) (fullData : NetworkGraphData) :
    NetworkGraphData :=
  match findCurrentNode fullData.nodes currentPath with
  | none =>
    { nodes := []
      links := []
      metadata := { generatedAt := fullData.metadata.generatedAt,
                    totalNodes := 0, totalLinks := 0 } }
  | some currentNode =>
    let ids := connectedIds fullData.links currentNode.id
    let filteredNodes := fullData.nodes.filter (fun node => ids.contains node.id)
    let filteredLinks := fullData.links.filter (fun l =>
      ids.contains l.source && ids.contains l.target)
    { nodes := filteredNodes
      links := filteredLinks
      metadata := { generatedAt := fullData.metadata.generatedAt,
                    totalNodes := filteredNodes.length,
                    totalLinks := filteredLinks.length } }

/-- Two links carry the same `(source, target, kind)` triple. -/
def sameTriple (e f : NetworkLink) : Prop :=
  e.source = f.source ∧ e.target = f.target ∧ e.type = f.type

/-- Dedup discipline between two links of a generated link list: never the
same triple, and two structural links never connect the same unordered pair
of ids. -/
def dedupOK (e f : NetworkLink) : Prop :=
  ¬ sameTriple e f ∧
  (e.type = "parent-child" → f.type = "parent-child" →
    ¬(e.source = f.target ∧ e.target = f.source))

/-- Id `x` is the current node or has a direct link (either direction,
either kind) with it. -/
def connectedTo (links : List NetworkLink) (curId x : String) : Prop :=
  x = curId ∨ ∃ l ∈ links, (l.source = curId ∧ l.target = x) ∨ (l.target = curId ∧ l.source = x)

/-- Shorthand node constructor for the concrete examples below. -/
def exNode (i p : String) : NetworkNode :=
  { id := i, title := i, path := p, type := "doc" }

/-- File contents of the two-file site whose pages link to each other. -/
def c2Contents : String → Option String := fun i =>
  if i = "a.md" then some "[x](./b.md)"
  else if i = "b.md" then some "[y](./a.md)"
  else none

/-- The two-file example site of the reference-inference example. -/
def c6Nodes : List NetworkNode := [exNode "a.md" "/a", exNode "b.md" "/b"]

/-- Body of `a.md` containing one inline link to `b.md`. -/
def c6Contents : String → Option String := fun i =>
  if i = "a.md" then some "[link](./b.md)" else some ""

/-- Variant with a fragment and query suffix on the link target. -/
def c6ContentsFrag : String → Option String := fun i =>
  if i = "a.md" then some "[link](./b.md#section?x=1)" else some ""

/-- Variant with the same link twice. -/
def c6ContentsDup : String → Option String := fun i =>
  if i = "a.md" then some "[one](./b.md) and [two](./b.md)" else some ""

/-- Variant with an external link only. -/
def c6ContentsHttp : String → Option String := fun i =>
  if i = "a.md" then some "[link](https://example.com)" else some ""

/-- Example site with files in sibling directories. -/
def c6NodesRel : List NetworkNode :=
  [exNode "docs/x/a.md" "/docs/x/a", exNode "docs/y/b.md" "/docs/y/b"]

/-- Body with a relative link crossing directories. -/
def c6ContentsRel : String → Option String := fun i =>
  if i = "docs/x/a.md" then some "[link](../y/b.md)" else some ""

/-- The three-node example graph of the filtering example: edge A-B
structural, edge B-C referential. -/
def c9Data : NetworkGraphData :=
  { nodes := [exNode "a" "/a", exNode "b" "/b", exNode "c" "/c"]
    links := [{ source := "a", target := "b", type := "parent-child", strength := mkRat 8 10 },
              { source := "b", target := "c", type := "reference", strength := mkRat 5 10 }]
    metadata := { generatedAt := "t", totalNodes := 3, totalLinks := 2 } }


/-! ### Helper lemmas -/

theorem foldl_pres {α σ : Type _} {P : σ → Prop} {f : σ → α → σ}
    (h : ∀ s a, P s → P (f s a)) :
    ∀ (l : List α) (s : σ), P s → P (l.foldl f s)
  | [], _, hs => hs
  | a :: l, s, hs => foldl_pres h l (f s a) (h s a hs)

theorem strMk_ne_empty {l : List Char} (h : l ≠ []) : String.mk l ≠ "" := by
  intro hc
  apply h
  have h2 := congrArg String.toList hc
  simpa using h2

theorem linkExistsBetween_eq_false_iff (links : List NetworkLink) (a b : String) :
    linkExistsBetween links a b = false ↔
      ∀ l ∈ links, ¬(l.source = a ∧ l.target = b) ∧ ¬(l.source = b ∧ l.target = a) := by
  unfold linkExistsBetween
  rw [List.any_eq_false]
  constructor
  · intro h l hl
    have := h l hl
    simp at this
    tauto
  · intro h l hl
    have := h l hl
    simp
    tauto

theorem refLinkExists_eq_false_iff (links : List NetworkLink) (s t : String) :
    refLinkExists links s t = false ↔
      ∀ l ∈ links, ¬(l.source = s ∧ l.target = t ∧ l.type = "reference") := by
  unfold refLinkExists
  rw [List.any_eq_false]
  constructor
  · intro h l hl
    have := h l hl
    simp at this
    tauto
  · intro h l hl
    have := h l hl
    simp
    tauto

theorem sameDirNew_spec (nodes : List NetworkNode) (links : List NetworkLink)
    (node : NetworkNode) :
    sameDirNew nodes links node = [] ∨
    ∃ e, sameDirNew nodes links node = [e] ∧
      e.source = sameDirCandidate node.id ∧ e.target = node.id ∧
      e.type = "parent-child" ∧ e.strength = mkRat 8 10 ∧
      e.source ≠ node.id ∧
      linkExistsBetween links e.source e.target = false := by
  simp only [sameDirNew]
  split
  · rename_i p hf
    have hp := List.find?_some hf
    simp at hp
    split
    · left; rfl
    · rename_i hex
      right
      refine ⟨_, rfl, ?_, rfl, rfl, rfl, ?_, ?_⟩
      · exact hp.1
      · exact hp.2
      · simpa using hex
  · left; rfl

theorem ancestorNew_spec (nodes : List NetworkNode) (links : List NetworkLink)
    (node : NetworkNode) :
    ancestorNew nodes links node = [] ∨
    ∃ e, ancestorNew nodes links node = [e] ∧
      e.source ∈ ancestorCandidates node.id ∧ e.target = node.id ∧
      e.type = "parent-child" ∧ e.strength = mkRat 6 10 ∧
      e.source ≠ node.id ∧
      linkExistsBetween links e.source e.target = false := by
  simp only [ancestorNew]
  split
  · split
    · rename_i m hf
      obtain ⟨c, hc, hfc⟩ := List.exists_of_findSome?_eq_some hf
      cases hg : nodes.find? (fun m2 => m2.id == c && !(m2.id == node.id)) with
      | none => rw [hg] at hfc; simp at hfc
      | some m2 =>
        rw [hg] at hfc
        have hp := List.find?_some hg
        simp at hp
        by_cases hex : linkExistsBetween links m2.id node.id
        · simp [hex] at hfc
        · simp [hex] at hfc
          subst hfc
          right
          refine ⟨_, rfl, ?_, rfl, rfl, rfl, ?_, ?_⟩
          · simpa [hp.1] using hc
          · exact hp.2
          · simpa using hex
    · left; rfl
  · left; rfl

theorem refTargetStep_spec (fileMap : List NetworkNode) (node : NetworkNode)
    (links : List NetworkLink) (lp : String) :
    refTargetStep fileMap node links lp = links ∨
    ∃ e, refTargetStep fileMap node links lp = links ++ [e] ∧
      e.source = node.id ∧ e.target ≠ node.id ∧
      e.type = "reference" ∧ e.strength = mkRat 5 10 ∧
      refLinkExists links e.source e.target = false := by
  simp only [refTargetStep]
  split
  · left; rfl
  · split
    · rename_i tn hf
      split
      · rename_i hneq
        split
        · left; rfl
        · rename_i hex
          right
          refine ⟨_, rfl, rfl, ?_, rfl, rfl, ?_⟩
          · simpa using hneq
          · simpa using hex
      · left; rfl
    · left; rfl

theorem forall_mem_append_singleton {P : NetworkLink → Prop} {links : List NetworkLink}
    {e : NetworkLink} (h : ∀ x ∈ links, P x) (he : P e) : ∀ x ∈ links ++ [e], P x := by
  intro x hx
  rcases List.mem_append.mp hx with h1 | h2
  · exact h x h1
  · rw [List.mem_singleton.mp h2]
    exact he

theorem pairwise_append_singleton {R : NetworkLink → NetworkLink → Prop}
    {links : List NetworkLink} {e : NetworkLink}
    (h : links.Pairwise R) (he : ∀ a ∈ links, R a e) : (links ++ [e]).Pairwise R :=
  List.pairwise_append.mpr ⟨h, List.pairwise_singleton _ _, fun a ha b hb => by
    rw [List.mem_singleton.mp hb]
    exact he a ha⟩

theorem dedup_append_structural {links : List NetworkLink} {e : NetworkLink}
    (h : links.Pairwise dedupOK)
    (hguard : linkExistsBetween links e.source e.target = false) :
    (links ++ [e]).Pairwise dedupOK := by
  apply pairwise_append_singleton h
  intro a ha
  have hg := (linkExistsBetween_eq_false_iff links e.source e.target).mp hguard a ha
  exact ⟨fun hst => hg.1 ⟨hst.1, hst.2.1⟩, fun _ _ => hg.2⟩

theorem dedup_append_ref {links : List NetworkLink} {e : NetworkLink}
    (h : links.Pairwise dedupOK) (hty : e.type = "reference")
    (hguard : refLinkExists links e.source e.target = false) :
    (links ++ [e]).Pairwise dedupOK := by
  apply pairwise_append_singleton h
  intro a ha
  have hg := (refLinkExists_eq_false_iff links e.source e.target).mp hguard a ha
  refine ⟨fun hst => ?_, fun _ hpc => ?_⟩
  · exact hg ⟨hst.1, hst.2.1, by rw [hst.2.2, hty]⟩
  · exact absurd (hty.symm.trans hpc) (by decide)

theorem pc_step_dedup (nodes : List NetworkNode) (node : NetworkNode)
    {links : List NetworkLink} (h : links.Pairwise dedupOK) :
    (parentChildStep nodes links node).Pairwise dedupOK := by
  simp only [parentChildStep]
  split
  · have h1 : (links ++ sameDirNew nodes links node).Pairwise dedupOK := by
      rcases sameDirNew_spec nodes links node with hz | ⟨e, he, _, _, _, _, _, hguard⟩
      · simpa [hz] using h
      · rw [he]
        exact dedup_append_structural h hguard
    rcases ancestorNew_spec nodes (links ++ sameDirNew nodes links node) node with
      hz | ⟨e, he, _, _, _, _, _, hguard⟩
    · simpa [hz] using h1
    · rw [he]
      exact dedup_append_structural h1 hguard
  · exact h

theorem ref_step_dedup (fileMap : List NetworkNode) (node : NetworkNode) (lp : String)
    {links : List NetworkLink} (h : links.Pairwise dedupOK) :
    (refTargetStep fileMap node links lp).Pairwise dedupOK := by
  rcases refTargetStep_spec fileMap node links lp with hz | ⟨e, he, _, _, hty, _, hguard⟩
  · rw [hz]
    exact h
  · rw [he]
    exact dedup_append_ref h hty hguard

theorem ref_node_dedup (fileMap : List NetworkNode) (contents : String → Option String)
    (node : NetworkNode) {links : List NetworkLink} (h : links.Pairwise dedupOK) :
    (refNodeStep fileMap contents links node).Pairwise dedupOK := by
  simp only [refNodeStep]
  split
  · exact h
  · exact foldl_pres (fun s a hs => ref_step_dedup fileMap node a hs) _ links h

theorem pc_step_mem (nodes : List NetworkNode) (node : NetworkNode)
    {links : List NetworkLink} {x : NetworkLink} (hx : x ∈ links) :
    x ∈ parentChildStep nodes links node := by
  simp only [parentChildStep]
  split
  · exact List.mem_append_left _ (List.mem_append_left _ hx)
  · exact hx

theorem pc_step_noloop (nodes : List NetworkNode) (node : NetworkNode)
    {links : List NetworkLink} (h : ∀ e ∈ links, e.source ≠ e.target) :
    ∀ e ∈ parentChildStep nodes links node, e.source ≠ e.target := by
  simp only [parentChildStep]
  split
  · have h1 : ∀ e ∈ links ++ sameDirNew nodes links node, e.source ≠ e.target := by
      rcases sameDirNew_spec nodes links node with hz | ⟨e, he, _, htgt, _, _, hne, _⟩
      · simpa [hz] using h
      · rw [he]
        exact forall_mem_append_singleton h (by rw [htgt]; exact hne)
    rcases ancestorNew_spec nodes (links ++ sameDirNew nodes links node) node with
      hz | ⟨e, he, _, htgt, _, _, hne, _⟩
    · simpa [hz] using h1
    · rw [he]
      exact forall_mem_append_singleton h1 (by rw [htgt]; exact hne)
  · exact h

theorem ref_step_noloop (fileMap : List NetworkNode) (node : NetworkNode) (lp : String)
    {links : List NetworkLink} (h : ∀ e ∈ links, e.source ≠ e.target) :
    ∀ e ∈ refTargetStep fileMap node links lp, e.source ≠ e.target := by
  rcases refTargetStep_spec fileMap node links lp with hz | ⟨e, he, hsrc, htgt, _, _, _⟩
  · rw [hz]
    exact h
  · rw [he]
    refine forall_mem_append_singleton h ?_
    rw [hsrc]
    exact fun hh => htgt (hsrc ▸ hh.symm)

theorem ref_node_noloop (fileMap : List NetworkNode) (contents : String → Option String)
    (node : NetworkNode) {links : List NetworkLink} (h : ∀ e ∈ links, e.source ≠ e.target) :
    ∀ e ∈ refNodeStep fileMap contents links node, e.source ≠ e.target := by
  simp only [refNodeStep]
  split
  · exact h
  · exact foldl_pres (P := fun s => ∀ e ∈ s, e.source ≠ e.target)
      (fun s a hs => ref_step_noloop fileMap node a hs) _ links h

theorem pc_step_P1 {nodes : List NetworkNode} {hub n m : NetworkNode} {links : List NetworkLink}
    (hmn : m.id ≠ n.id)
    (hsc : m.id = hub.id → sameDirCandidate hub.id ≠ n.id)
    (hnc : m.id = hub.id → n.id ∉ ancestorCandidates hub.id)
    (hP : ∀ l ∈ links, l.target ≠ n.id ∧ ¬(l.source = n.id ∧ l.target = hub.id)) :
    ∀ l ∈ parentChildStep nodes links m, l.target ≠ n.id ∧ ¬(l.source = n.id ∧ l.target = hub.id) := by
  simp only [parentChildStep]
  split
  · have h1 : ∀ l ∈ links ++ sameDirNew nodes links m,
        l.target ≠ n.id ∧ ¬(l.source = n.id ∧ l.target = hub.id) := by
      rcases sameDirNew_spec nodes links m with hz | ⟨e, he, hsrc, htgt, _, _, _, _⟩
      · simpa [hz] using hP
      · rw [he]
        apply forall_mem_append_singleton hP
        constructor
        · rw [htgt]
          exact hmn
        · rintro ⟨hes, het⟩
          have hmh : m.id = hub.id := by rw [← htgt]; exact het
          have hcand : sameDirCandidate hub.id = n.id := by rw [← hmh, ← hsrc]; exact hes
          exact hsc hmh hcand
    rcases ancestorNew_spec nodes (links ++ sameDirNew nodes links m) m with
      hz | ⟨e, he, hsrc, htgt, _, _, _, _⟩
    · simpa [hz] using h1
    · rw [he]
      apply forall_mem_append_singleton h1
      constructor
      · rw [htgt]
        exact hmn
      · rintro ⟨hes, het⟩
        have hmh : m.id = hub.id := by rw [← htgt]; exact het
        have hcand : n.id ∈ ancestorCandidates hub.id := by rw [← hmh, ← hes]; exact hsrc
        exact hnc hmh hcand
  · exact hP

theorem pc_step_at_n {nodes : List NetworkNode} {hub n : NetworkNode} {links : List NetworkLink}
    (hhub : hub ∈ nodes)
    (hparts : 1 < (splitChar '/' n.id).length)
    (hhubid : hub.id = sameDirCandidate n.id)
    (hne : hub.id ≠ n.id)
    (hP : ∀ l ∈ links, l.target ≠ n.id ∧ ¬(l.source = n.id ∧ l.target = hub.id)) :
    ({ source := hub.id, target := n.id, type := "parent-child", strength := mkRat 8 10 } :
      NetworkLink) ∈ parentChildStep nodes links n := by
  simp only [parentChildStep]
  split
  · apply List.mem_append_left
    apply List.mem_append_right
    have hex : ∃ m ∈ nodes, (m.id == sameDirCandidate n.id && !(m.id == n.id)) = true :=
      ⟨hub, hhub, by simp [← hhubid, hne]⟩
    obtain ⟨p, hp⟩ := Option.isSome_iff_exists.mp (List.find?_isSome.mpr hex)
    have hpred := List.find?_some hp
    simp at hpred
    have hpid2 : p.id = hub.id := by rw [hpred.1, ← hhubid]
    have hguard : linkExistsBetween links hub.id n.id = false :=
      (linkExistsBetween_eq_false_iff links hub.id n.id).mpr
        (fun l hl => ⟨fun hc => (hP l hl).1 hc.2, fun hc => (hP l hl).2 ⟨hc.1, hc.2⟩⟩)
    simp only [sameDirNew]
    rw [hp]
    simp [hpid2, hguard]
  · exact absurd hparts (by assumption)

theorem c1_aux {nodes : List NetworkNode} {hub n : NetworkNode}
    (hhub : hub ∈ nodes)
    (hparts : 1 < (splitChar '/' n.id).length)
    (hhubid : hub.id = sameDirCandidate n.id)
    (hne : hub.id ≠ n.id)
    (hsc : sameDirCandidate hub.id ≠ n.id)
    (hnc : n.id ∉ ancestorCandidates hub.id) :
    ∀ (ns : List NetworkNode) (links : List NetworkLink),
      n ∈ ns → (∀ m ∈ ns, m.id = n.id → m = n) →
      (∀ l ∈ links, l.target ≠ n.id ∧ ¬(l.source = n.id ∧ l.target = hub.id)) →
      ({ source := hub.id, target := n.id, type := "parent-child", strength := mkRat 8 10 } :
        NetworkLink) ∈ ns.foldl (parentChildStep nodes) links := by
  intro ns
  induction ns with
  | nil =>
    intro links hmem
    simp at hmem
  | cons m ms ih =>
    intro links hmem hinj hP
    rw [List.foldl_cons]
    by_cases hid : m.id = n.id
    · have hm : m = n := hinj m (List.mem_cons_self m ms) hid
      subst hm
      exact foldl_pres (P := fun s => _ ∈ s) (fun s a hs => pc_step_mem nodes a hs) ms _
        (pc_step_at_n hhub hparts hhubid hne hP)
    · have hn2 : n ∈ ms := by
        rcases List.mem_cons.mp hmem with h1 | h2
        · exact absurd (by rw [h1]) hid
        · exact h2
      exact ih _ hn2 (fun x hx hxe => hinj x (List.mem_cons_of_mem m hx) hxe)
        (pc_step_P1 hid (fun _ => hsc) (fun _ => hnc) hP)

/-! ### Claim theorems -/

/-- C1 (counterexample): with the files `topic/topic.md`, `topic/sub.md` and
`topic/sub2.md` the structural-edge inference produces no edge at all — the
same-directory hub candidate is only ever tried with the `.mdx` extension, so
a `.md` hub file is never recognized, contradicting the claimed example. -/
theorem c1_counterexample :
    generateParentChildLinks
      [exNode "topic/topic.md" "/topic", exNode "topic/sub.md" "/topic/sub",
       exNode "topic/sub2.md" "/topic/sub2"] [] 10 = [] := by decide

/-- C1 (amended): whenever a node exists whose file name matches its
containing directory's name with the `.mdx` extension specifically, that node
becomes the structural parent of every other node of that directory: for any
node list with distinct ids containing such a hub and another node of the
same directory, the generated structural edges contain the hub-to-node edge
(the technical side conditions exclude id collisions between the hub's own
parent candidates and the child node). -/
theorem c1_mdx_hub_parent (nodes : List NetworkNode) (hub n : NetworkNode) (maxDepth : Nat)
    (hnodup : (nodes.map NetworkNode.id).Nodup)
    (hhub : hub ∈ nodes) (hn : n ∈ nodes)
    (hparts : 1 < (splitChar '/' n.id).length)
    (hhubid : hub.id = sameDirCandidate n.id)
    (hne : hub.id ≠ n.id)
    (hsc : sameDirCandidate hub.id ≠ n.id)
    (hnc : n.id ∉ ancestorCandidates hub.id) :
    ({ source := hub.id, target := n.id, type := "parent-child", strength := mkRat 8 10 } :
      NetworkLink) ∈ generateParentChildLinks nodes [] maxDepth :=
  c1_aux hhub hparts hhubid hne hsc hnc nodes [] hn
    (fun m hm he => List.inj_on_of_nodup_map hnodup hm hn he) (by simp)

/-- C1 (witness): the amended example site `topic/topic.mdx`, `topic/sub.md`,
`topic/sub2.md` produces exactly the two hub-to-child edges and nothing
between the two siblings; both edges are obtained from the amended theorem. -/
theorem c1_mdx_hub_parent_witness :
    generateParentChildLinks
        [exNode "topic/topic.mdx" "/topic", exNode "topic/sub.md" "/topic/sub",
         exNode "topic/sub2.md" "/topic/sub2"] [] 10 =
      [{ source := "topic/topic.mdx", target := "topic/sub.md", type := "parent-child",
         strength := mkRat 8 10 },
       { source := "topic/topic.mdx", target := "topic/sub2.md", type := "parent-child",
         strength := mkRat 8 10 }] ∧
    ({ source := "topic/topic.mdx", target := "topic/sub.md", type := "parent-child",
       strength := mkRat 8 10 } : NetworkLink) ∈
      generateParentChildLinks
        [exNode "topic/topic.mdx" "/topic", exNode "topic/sub.md" "/topic/sub",
         exNode "topic/sub2.md" "/topic/sub2"] [] 10 ∧
    ({ source := "topic/topic.mdx", target := "topic/sub2.md", type := "parent-child",
       strength := mkRat 8 10 } : NetworkLink) ∈
      generateParentChildLinks
        [exNode "topic/topic.mdx" "/topic", exNode "topic/sub.md" "/topic/sub",
         exNode "topic/sub2.md" "/topic/sub2"] [] 10 :=
  ⟨by decide,
   c1_mdx_hub_parent _ (exNode "topic/topic.mdx" "/topic") (exNode "topic/sub.md" "/topic/sub")
     10 (by decide) (by decide) (by decide) (by decide) (by decide) (by decide) (by decide)
     (by decide),
   c1_mdx_hub_parent _ (exNode "topic/topic.mdx" "/topic") (exNode "topic/sub2.md" "/topic/sub2")
     10 (by decide) (by decide) (by decide) (by decide) (by decide) (by decide) (by decide)
     (by decide)⟩

/-- C2: in every generated graph no two links share the same
`(source, target, kind)` triple and no two structural links connect the same
unordered pair in either direction; and the referential dedup is strictly
directed: in the two-file site whose pages link to each other, both directed
reference edges are present. -/
theorem c2_edge_dedup :
    (∀ (nodes : List NetworkNode) (contents : String → Option String)
        (generatedAt : String) (maxDepth : Nat),
      ((generateNetworkGraph nodes contents generatedAt maxDepth).links).Pairwise dedupOK) ∧
    (({ source := "a.md", target := "b.md", type := "reference", strength := mkRat 5 10 } :
        NetworkLink) ∈
      (generateNetworkGraph [exNode "a.md" "/a", exNode "b.md" "/b"] c2Contents "t" 10).links ∧
     ({ source := "b.md", target := "a.md", type := "reference", strength := mkRat 5 10 } :
        NetworkLink) ∈
      (generateNetworkGraph [exNode "a.md" "/a", exNode "b.md" "/b"] c2Contents "t" 10).links) := by
  constructor
  · intro nodes contents generatedAt maxDepth
    have hpc : (generateParentChildLinks nodes [] maxDepth).Pairwise dedupOK :=
      foldl_pres (fun s a hs => pc_step_dedup nodes a hs) nodes [] List.Pairwise.nil
    exact foldl_pres (fun s a hs => ref_node_dedup nodes contents a hs) nodes _ hpc
  · exact ⟨by decide, by decide⟩

/-- C3: every generated graph and every filtered graph carries metadata
counts equal to the actual collection lengths. -/
theorem c3_counts_consistent :
    (∀ (nodes : List NetworkNode) (contents : String → Option String)
        (generatedAt : String) (maxDepth : Nat),
      (generateNetworkGraph nodes contents generatedAt maxDepth).metadata.totalNodes =
        (generateNetworkGraph nodes contents generatedAt maxDepth).nodes.length ∧
      (generateNetworkGraph nodes contents generatedAt maxDepth).metadata.totalLinks =
        (generateNetworkGraph nodes contents generatedAt maxDepth).links.length) ∧
    (∀ (currentPath : String) (fullData : NetworkGraphData),
      (filterDataForCurrentPage currentPath fullData).metadata.totalNodes =
        (filterDataForCurrentPage currentPath fullData).nodes.length ∧
      (filterDataForCurrentPage currentPath fullData).metadata.totalLinks =
        (filterDataForCurrentPage currentPath fullData).links.length) := by
  constructor
  · exact fun nodes contents generatedAt maxDepth => ⟨rfl, rfl⟩
  · intro currentPath fullData
    rcases hfind : findCurrentNode fullData.nodes currentPath with _ | cur <;>
      simp [filterDataForCurrentPage, hfind]

/-- C4: no edge of a generated graph is a self-loop. -/
theorem c4_no_self_loops :
    ∀ (nodes : List NetworkNode) (contents : String → Option String)
      (generatedAt : String) (maxDepth : Nat),
      ∀ e ∈ (generateNetworkGraph nodes contents generatedAt maxDepth).links,
        e.source ≠ e.target := by
  intro nodes contents generatedAt maxDepth
  have hpc : ∀ e ∈ generateParentChildLinks nodes [] maxDepth, e.source ≠ e.target :=
    foldl_pres (P := fun s : List NetworkLink => ∀ e ∈ s, e.source ≠ e.target)
      (fun s a hs => pc_step_noloop nodes a hs) nodes []
      (fun e he => absurd he (List.not_mem_nil e))
  exact foldl_pres (P := fun s : List NetworkLink => ∀ e ∈ s, e.source ≠ e.target)
    (fun s a hs => ref_node_noloop nodes contents a hs) nodes _ hpc

/-- C4 (witness): the theorem applied to a concrete generated graph that
contains a structural edge. -/
theorem c4_no_self_loops_witness :
    ({ source := "topic/topic.mdx", target := "topic/sub.md", type := "parent-child",
       strength := mkRat 8 10 } : NetworkLink) ∈
      (generateNetworkGraph [exNode "topic/topic.mdx" "/topic", exNode "topic/sub.md" "/topic/sub"]
        (fun _ => none) "t" 10).links ∧
    ({ source := "topic/topic.mdx", target := "topic/sub.md", type := "parent-child",
       strength := mkRat 8 10 } : NetworkLink).source ≠
      ({ source := "topic/topic.mdx", target := "topic/sub.md", type := "parent-child",
         strength := mkRat 8 10 } : NetworkLink).target :=
  ⟨by decide,
   c4_no_self_loops [exNode "topic/topic.mdx" "/topic", exNode "topic/sub.md" "/topic/sub"]
     (fun _ => none) "t" 10 _ (by decide)⟩

/-- C10: the `maxDepth` option has no effect on structural-edge inference:
for any node list, edge accumulator and any two depth values the produced
edges coincide. -/
theorem c10_maxdepth_irrelevant :
    ∀ (nodes : List NetworkNode) (links : List NetworkLink) (d1 d2 : Nat),
      generateParentChildLinks nodes links d1 = generateParentChildLinks nodes links d2 :=
  fun _ _ _ _ => rfl

theorem jsTruthy_some_ne {o : Option String} {t : String} (h : jsTruthy o = some t) :
    t ≠ "" := by
  unfold jsTruthy at h
  cases o with
  | none => simp at h
  | some s =>
    by_cases hs : s = ""
    · simp [hs] at h
    · simp [hs] at h
      rw [← h]
      exact hs

theorem h1OfLine_some_ne {l : String} {h : String} (hh : h1OfLine l = some h) : h ≠ "" := by
  unfold h1OfLine at hh
  split at hh
  · rename_i rest heq
    by_cases hws : (List.takeWhile isWs rest).isEmpty
    · simp [hws] at hh
    · by_cases htail : (List.dropWhile isWs rest).isEmpty
      · by_cases hlen : 2 ≤ (List.takeWhile isWs rest).length
        · simp [hws, htail, hlen] at hh
          subst hh
          exact strMk_ne_empty (by simp)
        · simp [hws, htail, hlen] at hh
      · simp [hws, htail] at hh
        subst hh
        exact strMk_ne_empty (by simpa using htail)
  · simp at hh

theorem firstH1_some_ne {c : String} {h : String} (hh : firstH1 c = some h) : h ≠ "" := by
  unfold firstH1 at hh
  obtain ⟨l, _, hline⟩ := List.exists_of_findSome?_eq_some hh
  exact h1OfLine_some_ne hline

theorem baseNoExt_ne_empty {p : String} (hl : (splitChar '/' p).getLastD "" ≠ "") :
    baseNoExt p ≠ "" := by
  simp only [baseNoExt]
  split
  · rename_i hcond
    obtain ⟨hne, hlt, hdrop⟩ := hcond
    apply strMk_ne_empty
    intro hc
    have hlen := congrArg List.length hc
    rw [List.length_take, Nat.min_eq_left (Nat.sub_le _ _)] at hlen
    simp only [List.length_nil] at hlen
    omega
  · exact hl

/-- C5: the node title is the front-matter `title` when that is a nonempty
field, else a nonempty `sidebar_label`, else the first level-1 heading of the
body, else the file base name without extension; and for any file whose last
path segment is nonempty the resulting title is nonempty. -/
theorem c5_title_resolution :
    ∀ (fp : String) (fm : Frontmatter) (content : String),
      (∀ t, jsTruthy fm.title = some t →
        (createNodeFromFile fp fm content).title = t) ∧
      (jsTruthy fm.title = none → ∀ s, jsTruthy fm.sidebar_label = some s →
        (createNodeFromFile fp fm content).title = s) ∧
      (jsTruthy fm.title = none → jsTruthy fm.sidebar_label = none →
        ∀ h, firstH1 content = some h → (createNodeFromFile fp fm content).title = h) ∧
      (jsTruthy fm.title = none → jsTruthy fm.sidebar_label = none →
        firstH1 content = none → (createNodeFromFile fp fm content).title = baseNoExt fp) ∧
      ((splitChar '/' fp).getLastD "" ≠ "" → (createNodeFromFile fp fm content).title ≠ "") := by
  intro fp fm content
  have htitle : (createNodeFromFile fp fm content).title = resolveTitle fp fm content := rfl
  refine ⟨?_, ?_, ?_, ?_, ?_⟩
  · intro t h
    rw [htitle]
    unfold resolveTitle
    rw [h]
  · intro h0 s h1
    rw [htitle]
    unfold resolveTitle
    rw [h0, h1]
  · intro h0 h1 h h2
    rw [htitle]
    unfold resolveTitle
    rw [h0, h1, h2]
  · intro h0 h1 h2
    rw [htitle]
    unfold resolveTitle
    rw [h0, h1, h2]
  · intro hl
    rw [htitle]
    unfold resolveTitle
    cases h0 : jsTruthy fm.title with
    | some t => exact jsTruthy_some_ne h0
    | none =>
      cases h1 : jsTruthy fm.sidebar_label with
      | some s => exact jsTruthy_some_ne h1
      | none =>
        cases h2 : firstH1 content with
        | some h => exact firstH1_some_ne h2
        | none => exact baseNoExt_ne_empty hl

/-- C5 (witness): the three spec examples, obtained from the theorem: a
`title: "Alpha"` front matter wins over a `# Beta` body; without front
matter the body heading wins; with neither, the bare file name is used. -/
theorem c5_title_resolution_witness :
    (createNodeFromFile "dir/file.md" { title := some "Alpha" } "# Beta").title = "Alpha" ∧
    (createNodeFromFile "dir/file.md" {} "intro\n# Beta\nrest").title = "Beta" ∧
    (createNodeFromFile "dir/file.md" {} "no heading").title = "file" :=
  ⟨(c5_title_resolution "dir/file.md" { title := some "Alpha" } "# Beta").1 "Alpha" (by decide),
   (c5_title_resolution "dir/file.md" {} "intro\n# Beta\nrest").2.2.1 (by decide) (by decide)
     "Beta" (by decide),
   ((c5_title_resolution "dir/file.md" {} "no heading").2.2.2.1 (by decide) (by decide)
     (by decide)).trans (by decide)⟩

/-- C6: a link target starting with a network-scheme or mail-scheme prefix
produces no edge, over any state; and the concrete site where `a.md` contains
`[link](./b.md)` (plus fragment-and-query, duplicate-link, cross-directory
relative, and external-link variants) produces exactly the expected single
directed reference edge, or none for the external link. -/
theorem c6_reference_inference :
    (∀ (fileMap : List NetworkNode) (node : NetworkNode) (links : List NetworkLink)
        (lp : String),
      (strStartsWith lp "http" || strStartsWith lp "mailto:") = true →
      refTargetStep fileMap node links lp = links) ∧
    generateReferenceLinks c6Nodes [] c6Contents c6Nodes =
      [{ source := "a.md", target := "b.md", type := "reference", strength := mkRat 5 10 }] ∧
    generateReferenceLinks c6Nodes [] c6ContentsFrag c6Nodes =
      [{ source := "a.md", target := "b.md", type := "reference", strength := mkRat 5 10 }] ∧
    generateReferenceLinks c6Nodes [] c6ContentsDup c6Nodes =
      [{ source := "a.md", target := "b.md", type := "reference", strength := mkRat 5 10 }] ∧
    generateReferenceLinks c6NodesRel [] c6ContentsRel c6NodesRel =
      [{ source := "docs/x/a.md", target := "docs/y/b.md", type := "reference",
         strength := mkRat 5 10 }] ∧
    generateReferenceLinks c6Nodes [] c6ContentsHttp c6Nodes = [] := by
  refine ⟨?_, by decide, by decide, by decide, by decide, by decide⟩
  intro fileMap node links lp h
  simp [refTargetStep, h]

/-- C6 (witness): an external target leaves the link accumulator unchanged,
by the scheme-prefix conjunct of the theorem. -/
theorem c6_reference_inference_witness :
    refTargetStep c6Nodes (exNode "a.md" "/a") [] "https://example.com" = [] :=
  c6_reference_inference.1 c6Nodes (exNode "a.md" "/a") [] "https://example.com" (by decide)

/-- C7: target matching tries the ordered candidate forms — exact id, id with
`.md`, id with `.mdx`, id as a directory with `index.md` then `index.mdx` —
returning the first hit, then falls back to the URL-path match (exact with a
leading slash, exact, or suffix); when nothing matches, no node is returned
and the reference step produces no edge. -/
theorem c7_target_matching :
    ∀ (r : String) (fileMap : List NetworkNode),
      (∀ n, getById fileMap r = some n → findTargetNode r fileMap = some n) ∧
      (getById fileMap r = none →
        ∀ n, getById fileMap (r ++ ".md") = some n → findTargetNode r fileMap = some n) ∧
      (getById fileMap r = none → getById fileMap (r ++ ".md") = none →
        ∀ n, getById fileMap (r ++ ".mdx") = some n → findTargetNode r fileMap = some n) ∧
      (getById fileMap r = none → getById fileMap (r ++ ".md") = none →
        getById fileMap (r ++ ".mdx") = none →
        ∀ n, getById fileMap (r ++ "/index.md") = some n → findTargetNode r fileMap = some n) ∧
      (getById fileMap r = none → getById fileMap (r ++ ".md") = none →
        getById fileMap (r ++ ".mdx") = none → getById fileMap (r ++ "/index.md") = none →
        ∀ n, getById fileMap (r ++ "/index.mdx") = some n → findTargetNode r fileMap = some n) ∧
      (getById fileMap r = none → getById fileMap (r ++ ".md") = none →
        getById fileMap (r ++ ".mdx") = none → getById fileMap (r ++ "/index.md") = none →
        getById fileMap (r ++ "/index.mdx") = none →
        findTargetNode r fileMap =
          fileMap.find? (fun node =>
            node.path == "/" ++ r || node.path == r || strEndsWith node.path r)) ∧
      (∀ (node : NetworkNode) (links : List NetworkLink) (lp : String),
        findTargetNode (resolveLinkPath node.id lp) fileMap = none →
        refTargetStep fileMap node links lp = links) := by
  intro r fileMap
  refine ⟨?_, ?_, ?_, ?_, ?_, ?_, ?_⟩
  · intro n h
    simp [findTargetNode, h]
  · intro h0 n h
    simp [findTargetNode, h0, h]
  · intro h0 h1 n h
    simp [findTargetNode, h0, h1, h]
  · intro h0 h1 h2 n h
    simp [findTargetNode, h0, h1, h2, h]
  · intro h0 h1 h2 h3 n h
    simp [findTargetNode, h0, h1, h2, h3, h]
  · intro h0 h1 h2 h3 h4
    simp [findTargetNode, h0, h1, h2, h3, h4]
  · intro node links lp h
    simp only [refTargetStep]
    split
    · rfl
    · rw [h]

/-- C7 (witness): with only the node `b.md` present, the target `b` misses
the exact form and is found through the `.md` candidate. -/
theorem c7_target_matching_witness :
    findTargetNode "b" [exNode "b.md" "/b"] = some (exNode "b.md" "/b") :=
  (c7_target_matching "b" [exNode "b.md" "/b"]).2.1 (by decide) (exNode "b.md" "/b") (by decide)

/-- C8: the ancestor-level pass creates at most one structural parent edge
per node, always with weight 6/10 (versus 8/10 for same-directory hub edges
and 5/10 for reference edges, and 5/10 < 6/10 < 8/10), with its source among
the declared candidate list; the candidates are tried in priority order: when
the parent-directory-name hub candidate exists as a node (and no link with it
exists yet) it wins, and when no node carries the first candidate's id, the
index candidate wins. -/
theorem c8_ancestor_parent :
    (∀ (nodes : List NetworkNode) (links : List NetworkLink) (node : NetworkNode),
      (ancestorNew nodes links node).length ≤ 1) ∧
    (∀ (nodes : List NetworkNode) (links : List NetworkLink) (node : NetworkNode),
      ∀ e ∈ ancestorNew nodes links node,
        e.type = "parent-child" ∧ e.strength = mkRat 6 10 ∧ e.target = node.id ∧
        e.source ∈ ancestorCandidates node.id) ∧
    (∀ (nodes : List NetworkNode) (links : List NetworkLink) (node : NetworkNode),
      ∀ e ∈ sameDirNew nodes links node, e.strength = mkRat 8 10) ∧
    (∀ (fileMap : List NetworkNode) (node : NetworkNode) (links : List NetworkLink)
        (lp : String) (e : NetworkLink),
      refTargetStep fileMap node links lp = links ++ [e] → e.strength = mkRat 5 10) ∧
    (mkRat 5 10 < mkRat 6 10 ∧ mkRat 6 10 < mkRat 8 10) ∧
    (∀ (nodes : List NetworkNode) (links : List NetworkLink) (node hubNode : NetworkNode),
      2 < (splitChar '/' node.id).length →
      hubNode ∈ nodes → hubNode.id = (ancestorCandidates node.id).getD 0 "" →
      hubNode.id ≠ node.id →
      linkExistsBetween links hubNode.id node.id = false →
      ancestorNew nodes links node =
        [{ source := hubNode.id, target := node.id, type := "parent-child",
           strength := mkRat 6 10 }]) ∧
    (∀ (nodes : List NetworkNode) (links : List NetworkLink) (node idxNode : NetworkNode),
      2 < (splitChar '/' node.id).length →
      (∀ m ∈ nodes, m.id ≠ (ancestorCandidates node.id).getD 0 "") →
      idxNode ∈ nodes → idxNode.id = (ancestorCandidates node.id).getD 1 "" →
      idxNode.id ≠ node.id →
      linkExistsBetween links idxNode.id node.id = false →
      ancestorNew nodes links node =
        [{ source := idxNode.id, target := node.id, type := "parent-child",
           strength := mkRat 6 10 }]) := by
  refine ⟨?_, ?_, ?_, ?_, ⟨by decide, by decide⟩, ?_, ?_⟩
  · intro nodes links node
    rcases ancestorNew_spec nodes links node with hz | ⟨e, he, _, _, _, _, _, _⟩
    · simp [hz]
    · simp [he]
  · intro nodes links node e' he'
    rcases ancestorNew_spec nodes links node with hz | ⟨e, he, hsrc, htgt, hty, hstr, _, _⟩
    · rw [hz] at he'
      exact absurd he' (List.not_mem_nil e')
    · rw [he] at he'
      rw [List.mem_singleton.mp he']
      exact ⟨hty, hstr, htgt, hsrc⟩
  · intro nodes links node e' he'
    rcases sameDirNew_spec nodes links node with hz | ⟨e, he, _, _, _, hstr, _, _⟩
    · rw [hz] at he'
      exact absurd he' (List.not_mem_nil e')
    · rw [he] at he'
      rw [List.mem_singleton.mp he']
      exact hstr
  · intro fileMap node links lp e heq
    rcases refTargetStep_spec fileMap node links lp with hz | ⟨e', he', _, _, _, hstr, _⟩
    · rw [hz] at heq
      have := congrArg List.length heq
      simp at this
    · rw [he'] at heq
      have h2 := List.append_cancel_left heq
      simp at h2
      rw [← h2]
      exact hstr
  · intro nodes links node hubNode hlen hmem hid hneq hguard
    obtain ⟨c1, c2, c3, hc⟩ : ∃ a b c, ancestorCandidates node.id = [a, b, c] := ⟨_, _, _, rfl⟩
    have hid1 : hubNode.id = c1 := by rw [hid, hc]; rfl
    have hneq1 : ¬(c1 = node.id) := by rw [← hid1]; exact hneq
    simp only [ancestorNew]
    rw [if_pos hlen, hc, List.findSome?_cons]
    have hex : ∃ m ∈ nodes, (m.id == c1 && !(m.id == node.id)) = true :=
      ⟨hubNode, hmem, by simp [hid1, hneq1]⟩
    obtain ⟨p, hp⟩ := Option.isSome_iff_exists.mp (List.find?_isSome.mpr hex)
    have hpred := List.find?_some hp
    simp at hpred
    have hguard2 : linkExistsBetween links c1 node.id = false := by
      rw [← hid1]
      exact hguard
    rw [hp]
    simp [hguard2, hpred.1]
    exact hid1.symm
  · intro nodes links node idxNode hlen hfirst hmem hid hneq hguard
    obtain ⟨c1, c2, c3, hc⟩ : ∃ a b c, ancestorCandidates node.id = [a, b, c] := ⟨_, _, _, rfl⟩
    have hfirst1 : ∀ m ∈ nodes, m.id ≠ c1 := by
      intro m hm
      have := hfirst m hm
      rw [hc] at this
      exact this
    have hid1 : idxNode.id = c2 := by rw [hid, hc]; rfl
    have hneq1 : ¬(c2 = node.id) := by rw [← hid1]; exact hneq
    simp only [ancestorNew]
    rw [if_pos hlen, hc, List.findSome?_cons]
    have hnone : nodes.find? (fun m => m.id == c1 && !(m.id == node.id)) = none := by
      rw [List.find?_eq_none]
      intro m hm
      simp
      intro hcid
      exact absurd hcid (hfirst1 m hm)
    rw [hnone]
    rw [List.findSome?_cons]
    have hex : ∃ m ∈ nodes, (m.id == c2 && !(m.id == node.id)) = true :=
      ⟨idxNode, hmem, by simp [hid1, hneq1]⟩
    obtain ⟨p, hp⟩ := Option.isSome_iff_exists.mp (List.find?_isSome.mpr hex)
    have hpred := List.find?_some hp
    simp at hpred
    have hguard2 : linkExistsBetween links c2 node.id = false := by
      rw [← hid1]
      exact hguard
    rw [hp]
    simp [hguard2, hpred.1]
    exact hid1.symm

/-- C8 (witness): with a `docs/docs.mdx` hub one level above `docs/sub/a.md`,
the ancestor pass produces exactly the first-candidate edge with weight 6/10,
by the priority conjunct of the theorem. -/
theorem c8_ancestor_parent_witness :
    ancestorNew [exNode "docs/docs.mdx" "/docs/docs", exNode "docs/sub/a.md" "/docs/sub/a"] []
        (exNode "docs/sub/a.md" "/docs/sub/a") =
      [{ source := "docs/docs.mdx", target := "docs/sub/a.md", type := "parent-child",
         strength := mkRat 6 10 }] :=
  c8_ancestor_parent.2.2.2.2.2.1
    [exNode "docs/docs.mdx" "/docs/docs", exNode "docs/sub/a.md" "/docs/sub/a"] []
    (exNode "docs/sub/a.md" "/docs/sub/a") (exNode "docs/docs.mdx" "/docs/docs")
    (by decide) (by decide) (by decide) (by decide) (by decide)

theorem connectedIds_fold_mem (curId : String) :
    ∀ (links : List NetworkLink) (acc : List String) (x : String),
      x ∈ links.foldl (fun acc l =>
          let acc1 := if l.source == curId then acc ++ [l.target] else acc
          if l.target == curId then acc1 ++ [l.source] else acc1) acc ↔
      x ∈ acc ∨ ∃ l ∈ links,
        (l.source = curId ∧ l.target = x) ∨ (l.target = curId ∧ l.source = x) := by
  intro links
  induction links with
  | nil =>
    intro acc x
    simp
  | cons l ls ih =>
    intro acc x
    rw [List.foldl_cons, ih]
    by_cases hs : l.source = curId <;> by_cases ht : l.target = curId <;>
      simp [hs, ht] <;> aesop

theorem mem_connectedIds (links : List NetworkLink) (curId x : String) :
    x ∈ connectedIds links curId ↔ connectedTo links curId x := by
  unfold connectedIds connectedTo
  rw [connectedIds_fold_mem]
  simp

theorem contains_connectedIds (links : List NetworkLink) (curId x : String) :
    (connectedIds links curId).contains x = true ↔ connectedTo links curId x :=
  List.elem_iff.trans (mem_connectedIds links curId x)

/-- C9: when the current location matches no node the filter returns the
empty graph with zero counts; when it matches the node `cur`, the filtered
nodes are exactly the original nodes that are `cur` or have a direct link
with `cur` (either direction, either kind), and the filtered links are
exactly the original links whose two endpoints both lie in that restricted
id set; and the two concrete filtering examples of the spec hold. -/
theorem c9_neighborhood_filter :
    (∀ (currentPath : String) (fullData : NetworkGraphData),
      findCurrentNode fullData.nodes currentPath = none →
      filterDataForCurrentPage currentPath fullData =
        { nodes := [], links := [],
          metadata := { generatedAt := fullData.metadata.generatedAt,
                        totalNodes := 0, totalLinks := 0 } }) ∧
    (∀ (currentPath : String) (fullData : NetworkGraphData) (cur : NetworkNode),
      findCurrentNode fullData.nodes currentPath = some cur →
      (∀ node, node ∈ (filterDataForCurrentPage currentPath fullData).nodes ↔
        node ∈ fullData.nodes ∧ connectedTo fullData.links cur.id node.id) ∧
      (∀ l, l ∈ (filterDataForCurrentPage currentPath fullData).links ↔
        l ∈ fullData.links ∧ connectedTo fullData.links cur.id l.source ∧
          connectedTo fullData.links cur.id l.target)) ∧
    (filterDataForCurrentPage "/b" c9Data =
      { nodes := c9Data.nodes, links := c9Data.links,
        metadata := { generatedAt := "t", totalNodes := 3, totalLinks := 2 } }) ∧
    (filterDataForCurrentPage "/a" c9Data =
      { nodes := [exNode "a" "/a", exNode "b" "/b"],
        links := [{ source := "a", target := "b", type := "parent-child",
                    strength := mkRat 8 10 }],
        metadata := { generatedAt := "t", totalNodes := 2, totalLinks := 1 } }) := by
  refine ⟨?_, ?_, by decide, by decide⟩
  · intro currentPath fullData h
    simp [filterDataForCurrentPage, h]
  · intro currentPath fullData cur h
    constructor
    · intro node
      simp only [filterDataForCurrentPage, h, List.mem_filter]
      constructor
      · rintro ⟨h1, h2⟩
        exact ⟨h1, (contains_connectedIds _ _ _).mp h2⟩
      · rintro ⟨h1, h2⟩
        exact ⟨h1, (contains_connectedIds _ _ _).mpr h2⟩
    · intro l
      simp only [filterDataForCurrentPage, h, List.mem_filter, Bool.and_eq_true]
      constructor
      · rintro ⟨h1, h2, h3⟩
        exact ⟨h1, (contains_connectedIds _ _ _).mp h2, (contains_connectedIds _ _ _).mp h3⟩
      · rintro ⟨h1, h2, h3⟩
        exact ⟨h1, (contains_connectedIds _ _ _).mpr h2, (contains_connectedIds _ _ _).mpr h3⟩

/-- C9 (witness): a location matching no node yields the empty graph with
consistent zero counts, by the first conjunct of the theorem. -/
theorem c9_neighborhood_filter_witness :
    filterDataForCurrentPage "/nowhere" c9Data =
      { nodes := [], links := [],
        metadata := { generatedAt := "t", totalNodes := 0, totalLinks := 0 } } :=
  c9_neighborhood_filter.1 "/nowhere" c9Data (by decide)
end NetworkGraphDemo
